import Mathlib

/-!
# Verification of the minprinter backend (`src/minprinter/backend.py`)

A shallow embedding, in Lean 4, of the pure computational content of the
minprinter backend: field extraction (`parse_text`), billing-period key
derivation (`year_and_quarter`), PDF discovery (`find_pdfs`), page layout
(`box_from_a4`, `place_one_jpg_on_a4_page`, `to_a4_jpg_pdf`), grouping
(`groupby`) and the merged-cell computation of `save_to_excel`, together
with theorems checking the stated properties of these functions.

Modelling conventions:
* Python machine floats are modelled by exact rationals (`ℚ`); every
  concrete value appearing in the theorems below is exactly representable
  (integers and small halves), so float rounding never changes a branch
  taken in those theorems.
* Python `int(x)` (truncation toward zero) is `pyInt`.
* Python `//` on integers (floor division) is `Int.fdiv`.
* Calls into external collaborators (the `re` module's `search`, the
  `pdftotext` process, file reads) are modelled by passing their observable
  outcome as an explicit argument.
* A Python function that can raise becomes a Lean function into `Except`.
-/

/-- Python `int(x)` on a real number: truncation toward zero (computed on
the reduced numerator/denominator so that kernel evaluation works). -/
def pyInt (q : ℚ) : ℤ :=
  if 0 ≤ q.num then q.num / (q.den : ℤ) else -((-q.num) / (q.den : ℤ))

/-- Value of a string of decimal digit characters, as Python `int(s)`
reads it (most significant digit first). -/
def digitsToNat (cs : List Char) : ℕ :=
  cs.foldl (fun a c => 10 * a + (c.toNat - 48)) 0

/-- Python `float(s)` for a string matching `\d+\.\d{2}` (an integer part,
a dot, and exactly two fractional digits): the exact rational value.  The
amounts used in the concrete theorems below are exactly representable as
binary floats, so this model agrees with Python there. -/
def pyFloat (s : String) : ℚ :=
  let intPart := digitsToNat (s.data.takeWhile (fun c => c ≠ '.'))
  let fracPart := digitsToNat ((s.data.dropWhile (fun c => c ≠ '.')).drop 1)
  (intPart : ℚ) + (fracPart : ℚ) / 100

/-! ## FieldExtractor: `parse_text` (backend.py lines 110-157)

The four `re.search` calls are external collaborator calls; each is
modelled by its observable outcome: `none` when the pattern found no
match, `some g` when it matched with first capture group `g`.  The name
capture is kept as a `List Char` because the code slices it
(`user_name[-3:]` operates on code points); the other three captures are
opaque strings.  The labels logged by the `logger.error` calls on the
failure paths are collected in the failure value together with the full
source text carried by the raised `MinvoiceException`. -/

/-- The four field labels whose searches `parse_text` attempts. -/
inductive FieldLabel
  | name
  | phone
  | date
  | amount
deriving DecidableEq

/-- The observable failure of `parse_text`: the raised exception carries
the full source text (line 156-157), and one `logger.error` naming each
unmatched field was emitted before raising (lines 130-132, 136-139,
143-146, 150-153). -/
structure MinvoiceFailure where
  text : String
  missing : List FieldLabel
deriving DecidableEq

/-- Lines 125-128: `if len(user_name) >= 4: user_name = user_name[-3:]`.
For a list of length `≥ 4`, Python `s[-3:]` is `drop (length - 3)`. -/
def truncateName (userName : List Char) : List Char :=
  if userName.length ≥ 4 then userName.drop (userName.length - 3) else userName

/-- `parse_text` (lines 110-157), with the four `re.search` outcomes
passed as arguments `r1 r2 r3 r4` (name, phone number, billing date,
billing amount).  All four searches run unconditionally (lines 118-121);
each miss sets `any_fail_flag` and logs its label; when no search missed,
the four extracted values are returned, otherwise the exception carrying
`text_str` is raised. -/
def parse_text (r1 : Option (List Char)) (r2 r3 r4 : Option String)
    (textStr : String) :
    Except MinvoiceFailure (List Char × String × String × String) :=
  let nameMiss : List FieldLabel := if r1.isSome then [] else [.name]
  let phoneMiss : List FieldLabel := if r2.isSome then [] else [.phone]
  let dateMiss : List FieldLabel := if r3.isSome then [] else [.date]
  let amountMiss : List FieldLabel := if r4.isSome then [] else [.amount]
  match r1, r2, r3, r4 with
  | some n, some p, some d, some a => .ok (truncateName n, p, d, a)
  | _, _, _, _ =>
      .error ⟨textStr, nameMiss ++ phoneMiss ++ dateMiss ++ amountMiss⟩

/-! ## `year_and_quarter` (backend.py lines 251-259) -/

/-- `year_and_quarter(date_str)`: `year = int(date_str[:4])`,
`month = int(date_str[4:6])`, `quarter = (month - 1) // 3 + 1` with
Python floor division. -/
def year_and_quarter (dateStr : String) : ℤ × ℤ :=
  let year : ℤ := digitsToNat (dateStr.data.take 4)
  let month : ℤ := digitsToNat ((dateStr.data.drop 4).take 2)
  (year, (month - 1).fdiv 3 + 1)

/-! ## InvoiceDiscovery: `find_pdfs` (backend.py lines 40-64)

The `glob` result is an external collaborator outcome, modelled as the
input list of candidate files, each with its basename and the page count
that `pdfinfo_from_path` reports for it. -/

/-- One candidate file produced by `glob`, with the page count the
external `pdfinfo_from_path` call would report. -/
structure PdfFile where
  path : String
  base : String
  pages : ℕ
deriving DecidableEq

/-- The two `MinvoiceException`s `find_pdfs` can raise. -/
inductive DiscoveryError
  | notFound
  | multiPage (path : String)
deriving DecidableEq

/-- The exclusion test of lines 55-57:
`exclude_basenames is not None and basename(pdf_path) in exclude_basenames`. -/
def isExcluded (exclude : Option (List String)) (p : PdfFile) : Bool :=
  match exclude with
  | some ex => p.base ∈ ex
  | none => false

/-- The `for pdf_path in pdfs` loop of `find_pdfs` (lines 53-63):
skip excluded basenames, raise on a page count other than 1, append
the rest in order. -/
def findPdfsLoop (exclude : Option (List String)) :
    List PdfFile → Except DiscoveryError (List String)
  | [] => .ok []
  | p :: rest =>
      if isExcluded exclude p then
        findPdfsLoop exclude rest
      else if p.pages ≠ 1 then
        .error (.multiPage p.path)
      else
        (findPdfsLoop exclude rest).map (fun r => p.path :: r)

/-- `find_pdfs` (lines 40-64): the emptiness check `if not pdfs` happens
on the raw `glob` result (line 51), before the exclusion filtering done
inside the loop. -/
def find_pdfs (pdfs : List PdfFile) (exclude : Option (List String)) :
    Except DiscoveryError (List String) :=
  if pdfs.isEmpty then .error .notFound else findPdfsLoop exclude pdfs

/-! ## PageCompositor: `box_from_a4` (backend.py lines 175-218) and the
paste/composition functions (lines 169-248)

Image sizes are pairs of pixel counts (`ℕ × ℕ`).  The float ratios
`w_r = im_w / a4_w` and `h_r = im_h / a4_h * 2` are modelled as exact
rationals; box coordinates, which Python computes with `int(...)`
truncation, live in `ℤ`. -/

/-- `box_from_a4(image_size, a4_size, top_or_bottom)` (lines 175-218):
returns the paste box top-left corner and, when a resize is needed,
the resized image dimensions (`im_re_size`, `None` otherwise). -/
def box_from_a4 (imageSize a4Size : ℕ × ℕ) (topOrBottom : Bool) :
    (ℤ × ℤ) × Option (ℤ × ℤ) :=
  let imW := imageSize.1
  let imH := imageSize.2
  let a4W := a4Size.1
  let a4H := a4Size.2
  let wR : ℚ := (imW : ℚ) / (a4W : ℚ)
  let hR : ℚ := (imH : ℚ) / (a4H : ℚ) * 2
  if wR > 1 ∨ hR > 1 then
    if wR > hR then
      let imReW : ℤ := (a4W : ℤ)
      let imReH : ℤ := pyInt ((imH : ℚ) / wR)
      let boxTopLeft : ℤ × ℤ :=
        if topOrBottom then
          (0, pyInt (((a4H : ℚ) - (imReH : ℚ) * 2) / 4))
        else
          (0, pyInt (((a4H : ℚ) - (imReH : ℚ) * 2) / 2) + imReH)
      (boxTopLeft, some (imReW, imReH))
    else
      let imReW : ℤ := pyInt ((imW : ℚ) / hR)
      let imReH : ℤ := pyInt ((a4H : ℚ) / 2)
      let boxTopLeft : ℤ × ℤ :=
        if topOrBottom then
          (pyInt (((a4W : ℚ) - (imReW : ℚ)) / 2), 0)
        else
          (pyInt (((a4W : ℚ) - (imReW : ℚ)) / 2), imReH)
      (boxTopLeft, some (imReW, imReH))
  else
    if topOrBottom then
      ((pyInt (((a4W : ℚ) - (imW : ℚ)) / 2),
        pyInt (((a4H : ℚ) - (imH : ℚ)) / 4)), none)
    else
      ((pyInt (((a4W : ℚ) - (imW : ℚ)) / 2),
        pyInt (((a4H : ℚ) - (imH : ℚ)) / 2) + (imH : ℤ)), none)

/-- One `a4_page.paste(...)` call made by `place_one_jpg_on_a4_page`
(lines 221-231): the source image size, which half was requested, the
paste box top-left corner, and the resize applied (if any). -/
structure Placement where
  imageSize : ℕ × ℕ
  topOrBottom : Bool
  box : ℤ × ℤ
  resizedTo : Option (ℤ × ℤ)
deriving DecidableEq

/-- `place_one_jpg_on_a4_page(image, a4_page, top_or_bottom)`
(lines 221-231) as the paste call it performs. -/
def place_one_jpg_on_a4_page (imageSize a4Size : ℕ × ℕ) (topOrBottom : Bool) :
    Placement :=
  let r := box_from_a4 imageSize a4Size topOrBottom
  ⟨imageSize, topOrBottom, r.1, r.2⟩

/-- The size of the pixel block a placement pastes: the resized size when
a resize happened, the source size otherwise. -/
def Placement.pastedSize (p : Placement) : ℤ × ℤ :=
  match p.resizedTo with
  | some s => s
  | none => ((p.imageSize.1 : ℤ), (p.imageSize.2 : ℤ))

/-- The `for i in range(0, len(images), 2)` loop of `to_a4_jpg_pdf`
(lines 242-247): one output canvas per iteration, pasting `images[i]` in
the top half and, when `i + 1 < len(images)`, `images[i + 1]` in the
bottom half.  A canvas is recorded as its list of paste calls in order. -/
def makeA4Pages (a4Size : ℕ × ℕ) : List (ℕ × ℕ) → List (List Placement)
  | [] => []
  | [x] => [[place_one_jpg_on_a4_page x a4Size true]]
  | x :: y :: rest =>
      [place_one_jpg_on_a4_page x a4Size true,
       place_one_jpg_on_a4_page y a4Size false] :: makeA4Pages a4Size rest

/-- The uncaught Python exception raised by `pages[0]` on an empty list. -/
inductive PyError
  | indexError
deriving DecidableEq

/-- The `pages[0].save(..., append_images=pages[1:])` call: first page as
base, remaining pages appended. -/
structure SavedPdf where
  firstPage : List Placement
  appendImages : List (List Placement)
deriving DecidableEq

/-- `to_a4_jpg_pdf(images, outfile, dpi)` (lines 234-248): build the page
list two source images at a time, then serialize via `pages[0].save`,
which raises `IndexError` when `pages` is empty.  The A4 canvas size
(computed from `dpi` on line 240) is passed explicitly, since the
properties below hold for every canvas size. -/
def to_a4_jpg_pdf (images : List (ℕ × ℕ)) (a4Size : ℕ × ℕ) :
    Except PyError SavedPdf :=
  match makeA4Pages a4Size images with
  | [] => .error .indexError
  | p :: ps => .ok ⟨p, ps⟩

/-- `to_raw_jpg_pdf(images, outfile)` (lines 169-172): a single
`images[0].save(..., append_images=images[1:])` call, raising
`IndexError` on an empty image list. -/
def to_raw_jpg_pdf (images : List (ℕ × ℕ)) :
    Except PyError ((ℕ × ℕ) × List (ℕ × ℕ)) :=
  match images with
  | [] => .error .indexError
  | x :: xs => .ok (x, xs)

/-! ## `to_text_str` (backend.py lines 98-107)

The two fallible steps — the external `pdftotext` invocation inside
`pdftotext_from_path` (which re-raises `OSError`/`ValueError`, lines
77-95) and the read of the recovered text file (lines 104-105) — are
modelled by their outcomes.  The second component of the result records
whether the `os.unlink(ntp.name)` on line 106 was reached, i.e. whether
the temporary file was removed. -/

/-- Outcome of a fallible external step: normal return or a raised
exception. -/
inductive StepOutcome
  | ok (out : String)
  | raises (msg : String)
deriving DecidableEq

/-- `to_text_str` (lines 98-107).  The function body runs the statements
in order with no `try`/`finally`; a raised exception propagates and the
statements after it — including the `os.unlink` — never run. -/
def to_text_str (pdftotextOutcome readOutcome : StepOutcome) :
    Except String String × Bool :=
  match pdftotextOutcome with
  | .raises e => (.error e, false)
  | .ok _ =>
      match readOutcome with
      | .raises e => (.error e, false)
      | .ok text => (.ok text, true)

/-! ## Aggregator and ReportRenderer: `groupby` (backend.py lines 262-272)
and the merged-cell computation of `save_to_excel` (lines 360-486)

A result row, as assembled by `print_invoice` (lines 522-536), is the
8-tuple `(u_name, y_q_str, b_year, b_quarter, b_date, u_phone, b_amount,
pdf_path)`; `itemgetter(0, 1, 5)` projects `(u_name, y_q_str, u_phone)`.
Python compares string tuples lexicographically, strings by code points;
Lean's `String` order is the same code-point lexicographic order.
`sorted` is a stable sort, modelled by `List.mergeSort` (also stable). -/

/-- One element of the `results` sequence built in `print_invoice`
(lines 522-536). -/
structure BillRow where
  uName : String
  yqStr : String
  bYear : ℤ
  bQuarter : ℤ
  bDate : String
  uPhone : String
  bAmount : ℚ
  pdfPath : String
deriving DecidableEq

/-- `itemgetter(0, 1, 5)`: the (person, period label, phone) key. -/
def key015 (r : BillRow) : String × String × String :=
  (r.uName, r.yqStr, r.uPhone)

/-- `itemgetter(0, 1)`: the (person, period label) key. -/
def key01 (r : BillRow) : String × String :=
  (r.uName, r.yqStr)

/-- `itemgetter(0)`: the person key. -/
def key0 (r : BillRow) : String :=
  r.uName

/-- Python `<` on lists of characters (and hence on strings, compared by
code point): compare elementwise left to right, first difference decides,
a strict prefix is smaller. -/
def charListLt : List Char → List Char → Bool
  | _, [] => false
  | [], _ :: _ => true
  | a :: as, b :: bs =>
      if a.toNat < b.toNat then true
      else if b.toNat < a.toNat then false
      else charListLt as bs

/-- Python `<` on strings: code-point lexicographic order. -/
def pyStrLt (a b : String) : Bool :=
  charListLt a.data b.data

/-- Python `<` on 3-tuples of strings, lexicographic. -/
def tupleLt3 (a b : String × String × String) : Bool :=
  pyStrLt a.1 b.1 || (a.1 == b.1 && (pyStrLt a.2.1 b.2.1 ||
    (a.2.1 == b.2.1 && pyStrLt a.2.2 b.2.2)))

/-- Python `<` on 2-tuples of strings, lexicographic. -/
def tupleLt2 (a b : String × String) : Bool :=
  pyStrLt a.1 b.1 || (a.1 == b.1 && pyStrLt a.2 b.2)

/-- The non-strict comparator corresponding to
`sorted(..., key=itemgetter(0, 1, 5))`.  Python's sort is a stable sort
driven by `<` on the keys; a stable merge sort with the complementary
non-strict comparator `¬ (key b < key a)` computes the same
permutation. -/
def sortLe015 (a b : BillRow) : Bool :=
  ! tupleLt3 (key015 b) (key015 a)

/-- The non-strict comparator for `sorted(..., key=itemgetter(0, 1))`. -/
def sortLe01 (a b : BillRow) : Bool :=
  ! tupleLt2 (key01 b) (key01 a)

/-- The non-strict comparator for `sorted(..., key=itemgetter(0,))`. -/
def sortLe0 (a b : BillRow) : Bool :=
  ! pyStrLt (key0 b) (key0 a)

/-- The inner scan of `itertools.groupby`: `k` is the current group key,
`acc` the current group's members in reverse; a new group starts at each
element whose key differs from `k`. -/
def groupbyRun (key : α → K) [DecidableEq K] (k : K) (acc : List α) :
    List α → List (K × List α)
  | [] => [(k, acc.reverse)]
  | y :: ys =>
      if key y = k then groupbyRun key k (y :: acc) ys
      else (k, acc.reverse) :: groupbyRun key (key y) [y] ys

/-- `itertools.groupby(l, key)`: maximal adjacent runs of equal key,
each with its key. -/
def itertoolsGroupby (key : α → K) [DecidableEq K] :
    List α → List (K × List α)
  | [] => []
  | x :: xs => groupbyRun key (key x) [x] xs

/-- `groupby(l, by)` (backend.py lines 262-272):
`itertools.groupby(sorted(l, key=itemgetter(*by)), key=itemgetter(*by))`.
The stable sort is `List.mergeSort` with the key comparator. -/
def pyGroupby (l : List α) (le : α → α → Bool) (key : α → K)
    [DecidableEq K] : List (K × List α) :=
  itertoolsGroupby key (l.mergeSort le)

/-- The groups of `itertools.groupby` applied to `l` as it stands (no
re-sorting): the maximal contiguous runs of `l` sharing a key. -/
def runsOf (key : α → K) [DecidableEq K] (l : List α) : List (List α) :=
  (itertoolsGroupby key l).map Prod.snd

/-- `itertools.accumulate([init] + sizes)` (line 393 with `init = 2`):
running totals, starting with `init` itself. -/
def accumulateFrom (init : ℕ) : List ℕ → List ℕ
  | [] => [init]
  | s :: ss => init :: accumulateFrom (init + s) ss

/-- The row ranges of the merge loops (lines 395-398 etc.):
`(group_row_pointers[i], group_row_pointers[i + 1] - 1)` for each `i`. -/
def mergeSpans (ptrs : List ℕ) : List (ℕ × ℕ) :=
  (ptrs.zip ptrs.tail).map (fun p => (p.1, p.2 - 1))

/-- The `(start_row, end_row, value)` of each column-6 subtotal merge that
`save_to_excel` performs for the `groupby(rst, (0, 1, 5))` level (lines
386-404); the companion column-3 merge of lines 406-410 spans the same
rows.  Row numbering starts at 2 because row 1 holds the headers. -/
def quarterPhoneSubtotals (rst : List BillRow) : List (ℕ × ℕ × ℚ) :=
  let groups := (pyGroupby rst sortLe015 key015).map
    (fun kg => kg.2.map BillRow.bAmount)
  ((mergeSpans (accumulateFrom 2 (groups.map List.length))).zip
      (groups.map List.sum)).map (fun x => (x.1.1, x.1.2, x.2))

/-- The `(start_row, end_row, value)` of each column-7 subtotal merge that
`save_to_excel` performs for the `groupby(rst, (0, 1))` level (lines
411-429); the companion column-2 merge of lines 430-435 spans the same
rows. -/
def quarterUserSubtotals (rst : List BillRow) : List (ℕ × ℕ × ℚ) :=
  let groups := (pyGroupby rst sortLe01 key01).map
    (fun kg => kg.2.map BillRow.bAmount)
  ((mergeSpans (accumulateFrom 2 (groups.map List.length))).zip
      (groups.map List.sum)).map (fun x => (x.1.1, x.1.2, x.2))

/-- The `(start_row, end_row)` of each column-1 person merge that
`save_to_excel` performs for the `groupby(rst, (0,))` level (lines
447-461); no value is written at this level. -/
def userNameSpans (rst : List BillRow) : List (ℕ × ℕ) :=
  let groups := (pyGroupby rst sortLe0 key0).map (fun kg => kg.2)
  mergeSpans (accumulateFrom 2 (groups.map List.length))

/-- Spec-side description of the subtotal merges, following the claim's
words: for the maximal contiguous runs of the sorted sequence at a group
key, the run starting after `off - 2` earlier rows occupies spreadsheet
rows `off .. off + run_length - 1` and carries the sum of its amounts. -/
def specGo (off : ℕ) : List (List ℚ) → List (ℕ × ℕ × ℚ)
  | [] => []
  | g :: gs => (off, off + g.length - 1, g.sum) :: specGo (off + g.length) gs

/-- Spec-side subtotal merges of a sorted sequence at a key: one triple
per maximal contiguous run, rows `2 + offset .. 2 + offset + length - 1`,
value the sum of `billing_amount` over exactly that run. -/
def specSubtotalMerges (key : BillRow → K) [DecidableEq K]
    (rst : List BillRow) : List (ℕ × ℕ × ℚ) :=
  specGo 2 ((runsOf key rst).map (fun g => g.map BillRow.bAmount))

/-- `gs` partitions `l` into nonempty contiguous runs of constant key,
and the runs are maximal: adjacent runs carry different keys. -/
def isMaximalRunPartition (key : α → K) (l : List α)
    (gs : List (List α)) : Prop :=
  gs.flatten = l ∧ (∀ g ∈ gs, g ≠ []) ∧
  (∀ g ∈ gs, ∀ a ∈ g, ∀ b ∈ g, key a = key b) ∧
  gs.Chain' (fun g h => ∀ a ∈ g, ∀ b ∈ h, key a ≠ key b)

/-! ## Pipeline: the analysis part of `print_invoice`
(backend.py lines 507-538) -/

/-- One element of `results` after the extraction loop (line 511):
`parse_text(text_str) + (pdf_path,)`, i.e.
`(user_name, user_phoneno, bill_date, bill_amount, pdf_path)`. -/
structure ParsedRecord where
  uName : String
  uPhone : String
  bDate : String
  bAmount : String
  pdfPath : String
deriving DecidableEq

/-- The per-record work of the aggregation loop (lines 522-532): derive
`(b_year, b_quarter)` from the billing date, build the display label
`str(b_year) + '年第' + str(b_quarter) + '季度'`, and coerce the amount
with `float(...)`. -/
def buildRow (t : ParsedRecord) : BillRow :=
  let yq := year_and_quarter t.bDate
  { uName := t.uName
    yqStr := toString yq.1 ++ "年第" ++ toString yq.2 ++ "季度"
    bYear := yq.1
    bQuarter := yq.2
    bDate := t.bDate
    uPhone := t.uPhone
    bAmount := pyFloat t.bAmount
    pdfPath := t.pdfPath }

/-- Lines 514-537: build the row for every parsed record, then
`sorted(results, key=operator.itemgetter(0, 1, 5))`. -/
def aggregateResults (parsed : List ParsedRecord) : List BillRow :=
  (parsed.map buildRow).mergeSort sortLe015

/-- The end-to-end scenario's three parsed records: one person and phone,
two statements in period 202301 (amounts 100.00 and 50.00) and one in
period 202304 (amount 30.00). -/
def endToEndParsed : List ParsedRecord :=
  [⟨"张三", "13800000000", "202301", "100.00", "a.pdf"⟩,
   ⟨"张三", "13800000000", "202301", "50.00", "b.pdf"⟩,
   ⟨"张三", "13800000000", "202304", "30.00", "c.pdf"⟩]

/-- The sorted rows the pipeline hands to `save_to_excel` in the
end-to-end scenario. -/
def endToEndRows : List BillRow :=
  aggregateResults endToEndParsed

/-- A small concrete sorted sequence used to witness the grouping
invariant: two people, the first with two phones in one period. -/
def witnessRows : List BillRow :=
  [⟨"an", "2023q1", 2023, 1, "202301", "111", 10, "a.pdf"⟩,
   ⟨"an", "2023q1", 2023, 1, "202302", "111", 20, "b.pdf"⟩,
   ⟨"an", "2023q1", 2023, 1, "202303", "222", 40, "c.pdf"⟩,
   ⟨"bo", "2023q2", 2023, 2, "202304", "333", 5, "d.pdf"⟩]

/-- The explicit sorted rows of the end-to-end scenario (what
`aggregateResults endToEndParsed` evaluates to). -/
def endToEndSorted : List BillRow :=
  [⟨"张三", "2023年第1季度", 2023, 1, "202301", "13800000000", 100, "a.pdf"⟩,
   ⟨"张三", "2023年第1季度", 2023, 1, "202301", "13800000000", 50, "b.pdf"⟩,
   ⟨"张三", "2023年第2季度", 2023, 2, "202304", "13800000000", 30, "c.pdf"⟩]

/-! ## Theorems -/

/-- Claim C9: the temporary recovered-text file is removed only on the
fully successful path.  When the external `pdftotext` call raises, or the
read of the recovered text raises, the exception propagates out of
`to_text_str` before `os.unlink` runs and the temporary file is NOT
removed (second component `false`); only when both steps succeed is it
removed.  This contradicts the claim that the file is removed on every
execution path. -/
theorem to_text_str_C9 :
    (∀ r, (to_text_str (.raises "OSError: pdftotext not found") r).2 = false) ∧
    (∀ t e, (to_text_str (.ok t) (.raises e)).2 = false) ∧
    (∀ t s, to_text_str (.ok t) (.ok s) = (.ok s, true)) :=
  ⟨fun _ => rfl, fun _ _ => rfl, fun _ _ => rfl⟩

/-- Claim C10: composing an empty page sequence reaches `pages[0].save`
with an empty `pages` list and raises `IndexError` (likewise
`to_raw_jpg_pdf` on `images[0]`); every non-empty sequence produces an
output document, so at least one source page is an implicit
precondition. -/
theorem to_a4_jpg_pdf_C10 :
    (∀ a4Size, to_a4_jpg_pdf [] a4Size = .error .indexError) ∧
    to_raw_jpg_pdf [] = .error .indexError ∧
    (∀ a4Size images, images ≠ [] →
      ∃ out, to_a4_jpg_pdf images a4Size = .ok out) := by
  refine ⟨fun _ => rfl, rfl, fun a4Size images hne => ?_⟩
  match images with
  | [x] => exact ⟨_, rfl⟩
  | x :: y :: rest => exact ⟨_, rfl⟩

theorem to_a4_jpg_pdf_C10_witness :
    to_a4_jpg_pdf [] (100, 100) = .error .indexError ∧
    ∃ out, to_a4_jpg_pdf [(30, 30)] (100, 100) = .ok out :=
  ⟨to_a4_jpg_pdf_C10.1 (100, 100),
   to_a4_jpg_pdf_C10.2.2 (100, 100) [(30, 30)] (by simp)⟩

/-- Claim C4 counterexample: a directory whose only PDF is excluded by
basename.  Zero candidates remain after filtering, yet `find_pdfs`
returns an empty list successfully instead of failing with NotFound,
because the `if not pdfs` check runs before the exclusion loop. -/
theorem find_pdfs_C4_cex :
    ([(⟨"/dir/out.pdf", "out.pdf", 1⟩ : PdfFile)].filter
        (fun p => !isExcluded (some ["out.pdf"]) p)) = [] ∧
    find_pdfs [⟨"/dir/out.pdf", "out.pdf", 1⟩] (some ["out.pdf"]) = .ok [] :=
  ⟨rfl, rfl⟩

theorem findPdfsLoop_ne_notFound (exclude : Option (List String))
    (l : List PdfFile) : findPdfsLoop exclude l ≠ .error .notFound := by
  induction l with
  | nil => simp [findPdfsLoop]
  | cons p rest ih =>
    simp only [findPdfsLoop]
    split
    · exact ih
    · split
      · simp
      · cases h : findPdfsLoop exclude rest with
        | ok r => simp [Except.map]
        | error e =>
          rw [h] at ih
          simp only [Except.map]
          intro hc
          exact ih (by injection hc with h2; rw [h2])

theorem findPdfsLoop_all_excluded (exclude : Option (List String))
    (l : List PdfFile) (h : ∀ p ∈ l, isExcluded exclude p) :
    findPdfsLoop exclude l = .ok [] := by
  induction l with
  | nil => rfl
  | cons p rest ih =>
    simp only [findPdfsLoop]
    rw [if_pos (h p (by simp))]
    exact ih (fun q hq => h q (by simp [hq]))

/-- Claim C4, amended: `find_pdfs` raises NotFound exactly when the raw
glob result is empty; the exclusion filter runs only afterwards, so when
candidates exist but every one is excluded, the function returns an empty
list without failing. -/
theorem find_pdfs_C4 (pdfs : List PdfFile) (exclude : Option (List String)) :
    (find_pdfs pdfs exclude = .error .notFound ↔ pdfs = []) ∧
    (pdfs ≠ [] → (∀ p ∈ pdfs, isExcluded exclude p) →
      find_pdfs pdfs exclude = .ok []) := by
  constructor
  · constructor
    · intro h
      by_contra hne
      rw [find_pdfs, if_neg (by simpa using hne)] at h
      exact findPdfsLoop_ne_notFound exclude pdfs h
    · intro h
      rw [h]
      rfl
  · intro hne hall
    rw [find_pdfs, if_neg (by simpa using hne)]
    exact findPdfsLoop_all_excluded exclude pdfs hall

theorem find_pdfs_C4_witness :
    find_pdfs [(⟨"/dir/x.pdf", "x.pdf", 1⟩ : PdfFile)] (some ["x.pdf"])
      = .ok [] :=
  (find_pdfs_C4 [⟨"/dir/x.pdf", "x.pdf", 1⟩] (some ["x.pdf"])).2
    (by simp) (by decide)

/-- Claim C7 counterexample: the extractor's billing-period pattern
`[账帐]期\W\s?(\d{6})` accepts any 6 digits, e.g. `"202313"`; for it the
derived quarter is `(13 - 1) // 3 + 1 = 5`, outside `1..4`. -/
theorem year_and_quarter_C7_cex :
    ("202313".data.length = 6 ∧ ∀ c ∈ "202313".data, c.isDigit) ∧
    (year_and_quarter "202313").2 = 5 :=
  ⟨⟨rfl, by decide⟩, by decide⟩

theorem quarterRangeIff (m : ℕ) :
    (1 ≤ m ∧ m ≤ 12) ↔
      (1 ≤ ((m : ℤ) - 1).fdiv 3 + 1 ∧ ((m : ℤ) - 1).fdiv 3 + 1 ≤ 4) := by
  rcases Nat.eq_zero_or_pos m with rfl | hm
  · decide
  · have hcast : (m : ℤ) - 1 = ((m - 1 : ℕ) : ℤ) := by
      rw [Nat.cast_sub hm]
      norm_num
    have hfd : ((m : ℤ) - 1).fdiv 3 = (((m - 1) / 3 : ℕ) : ℤ) := by
      rw [hcast, Int.fdiv_eq_ediv _ (by norm_num), Int.natCast_div]
      norm_num
    rw [hfd]
    omega

/-- Claim C7, amended: for every 6-digit string the derived key satisfies
`quarter = ((month - 1) div 3) + 1` (floor division) with `month` the
value of the last two digits, and the quarter lies in `1..4` if and only
if those digits denote a calendar month `01..12` — so for every other
accepted two-digit value (`00` and `13..99`) the quarter falls outside
`1..4`. -/
theorem year_and_quarter_C7 (s : String) (_h6 : s.data.length = 6)
    (_hd : ∀ c ∈ s.data, c.isDigit) :
    (year_and_quarter s).2
      = ((digitsToNat ((s.data.drop 4).take 2) : ℤ) - 1).fdiv 3 + 1 ∧
    (1 ≤ digitsToNat ((s.data.drop 4).take 2) ∧
        digitsToNat ((s.data.drop 4).take 2) ≤ 12 ↔
      1 ≤ (year_and_quarter s).2 ∧ (year_and_quarter s).2 ≤ 4) :=
  ⟨rfl, quarterRangeIff _⟩

theorem year_and_quarter_C7_witness :
    (1 ≤ (year_and_quarter "202301").2 ∧ (year_and_quarter "202301").2 ≤ 4) ∧
    ¬ (1 ≤ digitsToNat (("202313".data.drop 4).take 2) ∧
        digitsToNat (("202313".data.drop 4).take 2) ≤ 12) :=
  ⟨(year_and_quarter_C7 "202301" rfl (by decide)).2.mp (by decide),
   fun h => absurd ((year_and_quarter_C7 "202313" rfl (by decide)).2.mp h)
     (by decide)⟩

/-- Claim C2: the four searches are all attempted independently — the set
of fields reported missing reflects each miss regardless of the others —
and `parse_text` returns the extracted tuple exactly when all four
matched; on any miss it fails with the failure carrying the full source
text and naming every unmatched label, never returning a partial
record. -/
theorem parse_text_C2 (r1 : Option (List Char)) (r2 r3 r4 : Option String)
    (textStr : String) :
    ((r1.isSome ∧ r2.isSome ∧ r3.isSome ∧ r4.isSome) →
      ∃ v, parse_text r1 r2 r3 r4 textStr = .ok v) ∧
    (¬(r1.isSome ∧ r2.isSome ∧ r3.isSome ∧ r4.isSome) →
      ∃ f, parse_text r1 r2 r3 r4 textStr = .error f ∧
        f.text = textStr ∧ f.missing ≠ [] ∧
        (FieldLabel.name ∈ f.missing ↔ r1 = none) ∧
        (FieldLabel.phone ∈ f.missing ↔ r2 = none) ∧
        (FieldLabel.date ∈ f.missing ↔ r3 = none) ∧
        (FieldLabel.amount ∈ f.missing ↔ r4 = none)) := by
  rcases r1 with _ | n <;> rcases r2 with _ | p <;>
    rcases r3 with _ | d <;> rcases r4 with _ | a <;>
    constructor <;> intro h <;>
    first
      | exact ⟨_, rfl⟩
      | exact ⟨_, rfl, rfl, by simp, by simp, by simp, by simp, by simp⟩
      | simp at h

theorem parse_text_C2_witness :
    (∃ v, parse_text (some ['张', '三']) (some "ph") (some "202301")
        (some "9.99") "txt" = Except.ok v) ∧
    (∃ f, parse_text none (some "ph") none (some "9.99") "txt"
        = Except.error f ∧
      f.text = "txt" ∧ f.missing ≠ [] ∧
      (FieldLabel.name ∈ f.missing ↔ (none : Option (List Char)) = none) ∧
      (FieldLabel.phone ∈ f.missing ↔ some "ph" = none) ∧
      (FieldLabel.date ∈ f.missing ↔ (none : Option String) = none) ∧
      (FieldLabel.amount ∈ f.missing ↔ some "9.99" = none)) := by
  constructor
  · exact (parse_text_C2 (some ['张', '三']) (some "ph") (some "202301")
      (some "9.99") "txt").1 (by simp)
  · exact (parse_text_C2 none (some "ph") none (some "9.99") "txt").2
      (by simp)

/-- Claim C6: when the name search matches, `parse_text` keeps the
matched run unchanged if it has at most 3 characters, and replaces it by
exactly its trailing 3 characters (the last 3, with the leading
`length - 3` characters cut off in front of them) if longer. -/
theorem parse_text_C6 (run : List Char) (p d a : String) (textStr : String) :
    parse_text (some run) (some p) (some d) (some a) textStr
      = .ok (truncateName run, p, d, a) ∧
    (run.length ≤ 3 → truncateName run = run) ∧
    (3 < run.length →
      truncateName run = run.drop (run.length - 3) ∧
      (truncateName run).length = 3 ∧
      run.take (run.length - 3) ++ truncateName run = run) := by
  refine ⟨rfl, fun h => ?_, fun h => ?_⟩
  · rw [truncateName, if_neg (by omega)]
  · rw [truncateName, if_pos (by omega)]
    refine ⟨rfl, ?_, List.take_append_drop _ _⟩
    rw [List.length_drop]
    omega

theorem parse_text_C6_witness :
    parse_text (some ['a', 'b', 'c', 'd']) (some "p") (some "d") (some "a")
        "t" = .ok (truncateName ['a', 'b', 'c', 'd'], "p", "d", "a") ∧
    truncateName ['a', 'b', 'c', 'd'] = ['b', 'c', 'd'] := by
  have h := parse_text_C6 ['a', 'b', 'c', 'd'] "p" "d" "a" "t"
  exact ⟨h.1, by rw [(h.2.2 (by decide)).1]; rfl⟩

theorem makeA4Pages_length (a4Size : ℕ × ℕ) : ∀ images : List (ℕ × ℕ),
    (makeA4Pages a4Size images).length = (images.length + 1) / 2
  | [] => rfl
  | [x] => by simp [makeA4Pages]
  | x :: y :: rest => by
    have ih := makeA4Pages_length a4Size rest
    simp only [makeA4Pages, List.length_cons, ih]
    omega

theorem makeA4Pages_get (a4Size : ℕ × ℕ) :
    ∀ (images : List (ℕ × ℕ)) (k : ℕ),
    (makeA4Pages a4Size images)[k]? =
      match images[2 * k]?, images[2 * k + 1]? with
      | some x, some y => some [place_one_jpg_on_a4_page x a4Size true,
                                place_one_jpg_on_a4_page y a4Size false]
      | some x, none => some [place_one_jpg_on_a4_page x a4Size true]
      | none, _ => none
  | [], k => by simp [makeA4Pages]
  | [x], k => by
    cases k with
    | zero => rfl
    | succ n =>
      have h1 : 2 * (n + 1) = 2 * n + 1 + 1 := by ring
      simp [makeA4Pages, h1]
  | x :: y :: rest, k => by
    cases k with
    | zero => simp [makeA4Pages]
    | succ n =>
      have ih := makeA4Pages_get a4Size rest n
      have h1 : 2 * (n + 1) = 2 * n + 1 + 1 := by ring
      simp only [makeA4Pages, List.getElem?_cons_succ, h1]
      exact ih

/-- Claim C8: for a non-empty image sequence, composition serializes the
page list built two images at a time: there are exactly
`⌈n / 2⌉ = (n + 1) / 2` output canvases; canvas `k` pastes image `2k`
into the top half and image `2k + 1` (when it exists) into the bottom
half; an odd final image yields a last canvas with a single top-half
paste and no bottom-half paste. -/
theorem to_a4_jpg_pdf_C8 (a4Size : ℕ × ℕ) (images : List (ℕ × ℕ))
    (hne : images ≠ []) :
    (∃ out, to_a4_jpg_pdf images a4Size = .ok out ∧
      out.firstPage :: out.appendImages = makeA4Pages a4Size images) ∧
    (makeA4Pages a4Size images).length = (images.length + 1) / 2 ∧
    ∀ k : ℕ, (makeA4Pages a4Size images)[k]? =
      match images[2 * k]?, images[2 * k + 1]? with
      | some x, some y => some [place_one_jpg_on_a4_page x a4Size true,
                                place_one_jpg_on_a4_page y a4Size false]
      | some x, none => some [place_one_jpg_on_a4_page x a4Size true]
      | none, _ => none := by
  refine ⟨?_, makeA4Pages_length a4Size images, makeA4Pages_get a4Size images⟩
  match images with
  | [x] => exact ⟨_, rfl, rfl⟩
  | x :: y :: rest => exact ⟨_, rfl, rfl⟩

theorem to_a4_jpg_pdf_C8_witness :
    (makeA4Pages (100, 100) [(10, 10), (20, 20), (30, 30)]).length = 2 ∧
    (makeA4Pages (100, 100) [(10, 10), (20, 20), (30, 30)])[1]?
      = some [place_one_jpg_on_a4_page (30, 30) (100, 100) true] := by
  have h := to_a4_jpg_pdf_C8 (100, 100) [(10, 10), (20, 20), (30, 30)]
    (by simp)
  exact ⟨h.2.1, h.2.2 1⟩

theorem pyInt_eq_floor {q : ℚ} (h : 0 ≤ q) : pyInt q = ⌊q⌋ := by
  rw [pyInt, if_pos (Rat.num_nonneg.mpr h), Rat.floor_def]

theorem pyInt_zero : pyInt 0 = 0 := by
  norm_num [pyInt]

theorem pyInt_natCast_div (n d : ℕ) :
    pyInt ((n : ℚ) / (d : ℚ)) = ((n / d : ℕ) : ℤ) := by
  rw [pyInt_eq_floor (by positivity), Rat.floor_natCast_div_natCast,
    Int.natCast_div]

theorem box_from_a4_unscaled (imW imH a4W a4H : ℕ)
    (hw : (imW : ℚ) / (a4W : ℚ) ≤ 1) (hh : (imH : ℚ) / (a4H : ℚ) * 2 ≤ 1)
    (tb : Bool) :
    box_from_a4 (imW, imH) (a4W, a4H) tb =
      ((pyInt (((a4W : ℚ) - (imW : ℚ)) / 2),
        if tb then pyInt (((a4H : ℚ) - (imH : ℚ)) / 4)
        else pyInt (((a4H : ℚ) - (imH : ℚ)) / 2) + (imH : ℤ)), none) := by
  unfold box_from_a4
  rw [if_neg (by push_neg; exact ⟨hw, hh⟩)]
  cases tb <;> simp

/-- Claim C5 counterexample: a source page of exactly canvas half-size,
`(1000, 500)` on a `(1000, 1000)` canvas.  Both ratios equal 1, so the
unscaled centering branch is taken; but the lower-half paste box is
`(0, 750)`, so the pasted page would end at row `750 + 500 = 1250`,
overflowing the canvas height 1000 — the lower-half placement does NOT
leave zero overflow. -/
theorem box_from_a4_C5_cex :
    (place_one_jpg_on_a4_page (1000, 500) (1000, 1000) false).resizedTo
        = none ∧
    (place_one_jpg_on_a4_page (1000, 500) (1000, 1000) false).box
        = (0, 750) ∧
    ¬ ((place_one_jpg_on_a4_page (1000, 500) (1000, 1000) false).box.2 +
        (place_one_jpg_on_a4_page
          (1000, 500) (1000, 1000) false).pastedSize.2 ≤ 1000) := by
  have h : box_from_a4 (1000, 500) (1000, 1000) false = ((0, 750), none) := by
    norm_num [box_from_a4, pyInt]
  refine ⟨?_, ?_, ?_⟩ <;>
    simp [place_one_jpg_on_a4_page, h, Placement.pastedSize]

/-- Claim C5, amended: for a source page exactly equal to canvas
half-size (`im_w = a4_w`, `im_h = a4_h / 2`, even positive canvas
height), both placements take the unscaled centering branch
(`im_re_size = None`).  The upper-half placement lies entirely within the
canvas, but the lower-half paste box is `(a4_h - im_h) / 2 + im_h`, whose
bottom edge exceeds the canvas height by `a4_h / 4` pixels — so cropping
occurs at the lower half whenever `a4_h ≥ 4`. -/
theorem box_from_a4_C5 (a4W a4H : ℕ) (hw : 0 < a4W) (hh : 0 < a4H)
    (hh2 : 2 ∣ a4H) :
    (box_from_a4 (a4W, a4H / 2) (a4W, a4H) true).2 = none ∧
    (box_from_a4 (a4W, a4H / 2) (a4W, a4H) false).2 = none ∧
    (box_from_a4 (a4W, a4H / 2) (a4W, a4H) true).1.1 = 0 ∧
    0 ≤ (box_from_a4 (a4W, a4H / 2) (a4W, a4H) true).1.2 ∧
    (box_from_a4 (a4W, a4H / 2) (a4W, a4H) true).1.2 + ((a4H / 2 : ℕ) : ℤ)
      ≤ (a4H : ℤ) ∧
    (box_from_a4 (a4W, a4H / 2) (a4W, a4H) false).1.2 + ((a4H / 2 : ℕ) : ℤ)
      = (a4H : ℤ) + ((a4H / 4 : ℕ) : ℤ) ∧
    (4 ≤ a4H →
      (a4H : ℤ) < (box_from_a4 (a4W, a4H / 2) (a4W, a4H) false).1.2 +
        ((a4H / 2 : ℕ) : ℤ)) := by
  obtain ⟨k, rfl⟩ := hh2
  have hk : 0 < k := by omega
  have hdiv : 2 * k / 2 = k := by omega
  have hkq : ((k : ℕ) : ℚ) ≠ 0 := Nat.cast_ne_zero.mpr hk.ne'
  have hwq : ((a4W : ℕ) : ℚ) ≠ 0 := Nat.cast_ne_zero.mpr hw.ne'
  have hwle : (a4W : ℚ) / (a4W : ℚ) ≤ 1 := by
    rw [div_self hwq]
  have hhle : ((2 * k / 2 : ℕ) : ℚ) / ((2 * k : ℕ) : ℚ) * 2 ≤ 1 := by
    rw [hdiv]
    have : ((k : ℕ) : ℚ) / ((2 * k : ℕ) : ℚ) * 2 = 1 := by
      push_cast
      field_simp
      ring
    rw [this]
  have ht := box_from_a4_unscaled a4W (2 * k / 2) a4W (2 * k) hwle hhle true
  have hb := box_from_a4_unscaled a4W (2 * k / 2) a4W (2 * k) hwle hhle false
  rw [if_pos rfl] at ht
  rw [if_neg (by simp)] at hb
  have hx : pyInt (((a4W : ℚ) - (a4W : ℚ)) / 2) = 0 := by
    rw [sub_self, zero_div, pyInt_zero]
  have hsub : ((2 * k : ℕ) : ℚ) - ((2 * k / 2 : ℕ) : ℚ) = ((k : ℕ) : ℚ) := by
    rw [hdiv]
    push_cast
    ring
  have hy4 : pyInt ((((2 * k : ℕ) : ℚ) - ((2 * k / 2 : ℕ) : ℚ)) / 4)
      = ((k / 4 : ℕ) : ℤ) := by
    rw [hsub, show (4 : ℚ) = ((4 : ℕ) : ℚ) by norm_num, pyInt_natCast_div]
  have hy2 : pyInt ((((2 * k : ℕ) : ℚ) - ((2 * k / 2 : ℕ) : ℚ)) / 2)
      = ((k / 2 : ℕ) : ℤ) := by
    rw [hsub, show (2 : ℚ) = ((2 : ℕ) : ℚ) by norm_num, pyInt_natCast_div]
  rw [ht, hb]
  dsimp only
  rw [hx, hy4, hy2]
  refine ⟨rfl, rfl, rfl, ?_, ?_, ?_, ?_⟩ <;> omega

theorem box_from_a4_C5_witness :
    (box_from_a4 (700, 1000 / 2) (700, 1000) false).1.2 + ((1000 / 2 : ℕ) : ℤ)
      = (1000 : ℤ) + ((1000 / 4 : ℕ) : ℤ) ∧
    (1000 : ℤ) < (box_from_a4 (700, 1000 / 2) (700, 1000) false).1.2 +
      ((1000 / 2 : ℕ) : ℤ) := by
  have h := box_from_a4_C5 700 1000 (by norm_num) (by norm_num) (by norm_num)
  exact ⟨h.2.2.2.2.2.1, h.2.2.2.2.2.2 (by norm_num)⟩

theorem groupbyRun_flatten (key : α → K) [DecidableEq K] :
    ∀ (l : List α) (k : K) (acc : List α),
    ((groupbyRun key k acc l).map Prod.snd).flatten = acc.reverse ++ l
  | [], k, acc => by simp [groupbyRun]
  | y :: ys, k, acc => by
    rw [groupbyRun]
    split
    · rw [groupbyRun_flatten key ys k (y :: acc)]
      simp
    · simp only [List.map_cons, List.flatten_cons]
      rw [groupbyRun_flatten key ys (key y) [y]]
      simp

theorem groupbyRun_mem (key : α → K) [DecidableEq K] :
    ∀ (l : List α) (k : K) (acc : List α), acc ≠ [] →
    (∀ a ∈ acc, key a = k) →
    ∀ p ∈ groupbyRun key k acc l, p.2 ≠ [] ∧ ∀ a ∈ p.2, key a = p.1
  | [], k, acc => by
    intro hne hacc p hp
    simp only [groupbyRun, List.mem_singleton] at hp
    subst hp
    constructor
    · simpa using hne
    · intro a ha
      exact hacc a (List.mem_reverse.mp ha)
  | y :: ys, k, acc => by
    intro hne hacc p hp
    rw [groupbyRun] at hp
    split at hp
    · refine groupbyRun_mem key ys k (y :: acc) (by simp) ?_ p hp
      intro a ha
      rcases List.mem_cons.mp ha with h | h
      · subst h
        assumption
      · exact hacc a h
    · rcases List.mem_cons.mp hp with h | h
      · subst h
        constructor
        · simpa using hne
        · intro a ha
          exact hacc a (List.mem_reverse.mp ha)
      · exact groupbyRun_mem key ys (key y) [y] (by simp) (by simp) p h

theorem groupbyRun_head_key (key : α → K) [DecidableEq K] :
    ∀ (l : List α) (k : K) (acc : List α),
    ∃ g gs, groupbyRun key k acc l = (k, g) :: gs
  | [], k, acc => ⟨acc.reverse, [], rfl⟩
  | y :: ys, k, acc => by
    rw [groupbyRun]
    split
    · exact groupbyRun_head_key key ys k (y :: acc)
    · exact ⟨acc.reverse, _, rfl⟩

theorem groupbyRun_keys_chain (key : α → K) [DecidableEq K] :
    ∀ (l : List α) (k : K) (acc : List α),
    ((groupbyRun key k acc l).map Prod.fst).Chain' (fun a b => a ≠ b)
  | [], k, acc => by simp [groupbyRun]
  | y :: ys, k, acc => by
    rw [groupbyRun]
    split
    · exact groupbyRun_keys_chain key ys k (y :: acc)
    · obtain ⟨g, gs, hgg⟩ := groupbyRun_head_key key ys (key y) [y]
      have hch := groupbyRun_keys_chain key ys (key y) [y]
      rw [hgg] at hch ⊢
      simp only [List.map_cons] at hch ⊢
      rw [List.chain'_cons]
      refine ⟨?_, hch⟩
      intro hcontra
      exact absurd hcontra.symm (by assumption)

theorem chain_of_mem_of_imp {R S : α → α → Prop} {P : α → Prop} :
    ∀ {l : List α}, l.Chain' R → (∀ a ∈ l, P a) →
    (∀ a b, P a → P b → R a b → S a b) → l.Chain' S := by
  intro l
  induction l with
  | nil => intro _ _ _; exact List.chain'_nil
  | cons a t ih =>
    intro hc hp himp
    cases t with
    | nil => exact List.chain'_singleton a
    | cons b t2 =>
      rw [List.chain'_cons] at hc ⊢
      refine ⟨himp a b (hp a (by simp)) (hp b (by simp)) hc.1, ?_⟩
      exact ih hc.2 (fun x hx => hp x (List.mem_cons_of_mem a hx)) himp

theorem itertoolsGroupby_mem (key : α → K) [DecidableEq K] (l : List α) :
    ∀ p ∈ itertoolsGroupby key l, p.2 ≠ [] ∧ ∀ a ∈ p.2, key a = p.1 := by
  cases l with
  | nil => simp [itertoolsGroupby]
  | cons x xs =>
    exact groupbyRun_mem key xs (key x) [x] (by simp) (by simp)

theorem runsOf_partition (key : α → K) [DecidableEq K] (l : List α) :
    isMaximalRunPartition key l (runsOf key l) := by
  refine ⟨?_, ?_, ?_, ?_⟩
  · cases l with
    | nil => rfl
    | cons x xs => exact groupbyRun_flatten key xs (key x) [x]
  · intro g hg
    rw [runsOf] at hg
    obtain ⟨p, hp, hpg⟩ := List.mem_map.mp hg
    rw [← hpg]
    exact (itertoolsGroupby_mem key l p hp).1
  · intro g hg a ha b hb
    rw [runsOf] at hg
    obtain ⟨p, hp, hpg⟩ := List.mem_map.mp hg
    subst hpg
    have h := (itertoolsGroupby_mem key l p hp).2
    rw [h a ha, h b hb]
  · rw [runsOf, List.chain'_map]
    have hkeys : ((itertoolsGroupby key l).map Prod.fst).Chain'
        (fun a b => a ≠ b) := by
      cases l with
      | nil => simp [itertoolsGroupby]
      | cons x xs => exact groupbyRun_keys_chain key xs (key x) [x]
    rw [List.chain'_map] at hkeys
    refine chain_of_mem_of_imp hkeys (itertoolsGroupby_mem key l) ?_
    intro p q hp hq hne a ha b hb
    rw [hp.2 a ha, hq.2 b hb]
    exact hne

theorem accumulateFrom_shape (i : ℕ) (l : List ℕ) :
    ∃ t, accumulateFrom i l = i :: t := by
  cases l <;> exact ⟨_, rfl⟩

theorem specGo_eq_spans : ∀ (groups : List (List ℚ)) (off : ℕ),
    ((mergeSpans (accumulateFrom off (groups.map List.length))).zip
        (groups.map List.sum)).map (fun x => (x.1.1, x.1.2, x.2))
      = specGo off groups
  | [], off => rfl
  | g :: gs, off => by
    have ih := specGo_eq_spans gs (off + g.length)
    obtain ⟨t, ht⟩ := accumulateFrom_shape (off + g.length)
      (gs.map List.length)
    simp only [List.map_cons, accumulateFrom, mergeSpans, specGo]
    rw [ht]
    simp only [List.tail_cons, List.zip_cons_cons, List.map_cons]
    rw [List.cons.injEq]
    constructor
    · rfl
    · rw [← ih, mergeSpans, ht]
      simp

theorem pyGroupby_sorted {le : α → α → Bool} (key : α → K) [DecidableEq K]
    (l : List α) (h : l.Pairwise (fun a b => le a b)) :
    pyGroupby l le key = itertoolsGroupby key l := by
  rw [pyGroupby, List.mergeSort_of_sorted h]

theorem sortLe01_of_sortLe015 (a b : BillRow) (h : sortLe015 a b = true) :
    sortLe01 a b = true := by
  rw [sortLe015, Bool.not_eq_true'] at h
  rw [sortLe01, Bool.not_eq_true']
  rw [tupleLt3] at h
  rw [tupleLt2]
  simp only [key015, key01] at h ⊢
  simp only [Bool.or_eq_false_iff] at h ⊢
  refine ⟨h.1, ?_⟩
  rcases Bool.and_eq_false_iff.mp h.2 with h2 | h2
  · exact Bool.and_eq_false_iff.mpr (Or.inl h2)
  · exact Bool.and_eq_false_iff.mpr
      (Or.inr (Bool.or_eq_false_iff.mp h2).1)

/-- Claim C1: on a sequence sorted by `(person, period label, phone)`,
every column-6 subtotal merge (the `(person, period, phone)` level) and
every column-7 subtotal merge (the `(person, period)` level) carries the
sum of `billing_amount` over exactly one maximal contiguous run of rows
sharing that level's key, and spans exactly that run's rows
(`2 + offset .. 2 + offset + run_length - 1`); at each level the runs
partition the sorted sequence into nonempty contiguous groups of constant
key with no gaps or overlaps, adjacent groups having different keys. -/
theorem save_to_excel_C1 (rst : List BillRow)
    (hs : rst.Pairwise (fun a b => sortLe015 a b)) :
    quarterPhoneSubtotals rst = specSubtotalMerges key015 rst ∧
    quarterUserSubtotals rst = specSubtotalMerges key01 rst ∧
    isMaximalRunPartition key015 rst (runsOf key015 rst) ∧
    isMaximalRunPartition key01 rst (runsOf key01 rst) := by
  have hs01 : rst.Pairwise (fun a b => sortLe01 a b) :=
    hs.imp (fun hab => sortLe01_of_sortLe015 _ _ hab)
  have hg015 : pyGroupby rst sortLe015 key015 = itertoolsGroupby key015 rst :=
    pyGroupby_sorted key015 rst hs
  have hg01 : pyGroupby rst sortLe01 key01 = itertoolsGroupby key01 rst :=
    pyGroupby_sorted key01 rst hs01
  refine ⟨?_, ?_, runsOf_partition key015 rst, runsOf_partition key01 rst⟩
  · simp only [quarterPhoneSubtotals]
    rw [hg015, specGo_eq_spans
      ((itertoolsGroupby key015 rst).map (fun kg => kg.2.map BillRow.bAmount))
      2]
    simp only [specSubtotalMerges, runsOf, List.map_map]
    rfl
  · simp only [quarterUserSubtotals]
    rw [hg01, specGo_eq_spans
      ((itertoolsGroupby key01 rst).map (fun kg => kg.2.map BillRow.bAmount))
      2]
    simp only [specSubtotalMerges, runsOf, List.map_map]
    rfl

theorem save_to_excel_C1_witness :
    quarterPhoneSubtotals witnessRows = specSubtotalMerges key015 witnessRows ∧
    quarterUserSubtotals witnessRows = specSubtotalMerges key01 witnessRows ∧
    isMaximalRunPartition key015 witnessRows (runsOf key015 witnessRows) := by
  have h := save_to_excel_C1 witnessRows (by decide)
  exact ⟨h.1, h.2.1, h.2.2.1⟩

theorem pyFloat_eval (s : String) (n f : ℕ)
    (h1 : digitsToNat (s.data.takeWhile (fun c => c ≠ '.')) = n)
    (h2 : digitsToNat ((s.data.dropWhile (fun c => c ≠ '.')).drop 1) = f) :
    pyFloat s = (n : ℚ) + (f : ℚ) / 100 := by
  rw [pyFloat, h1, h2]

/-- Claim C3, end-to-end scenario: three statements of one person and
phone, two in period 202301 (100.00 and 50.00) and one in 202304
(30.00).  The sorted rows are the two 202301 rows followed by the 202304
row; the per-period-per-phone subtotal merge for 202301 covers
spreadsheet rows 2-3 with value 150.00 (and 202304 gets rows 4-4 with
30.00); the period columns carry exactly 2 merged blocks; the single
person block merges rows 2-4, i.e. all 3 data rows, and the person's
rows total 180.00 across both periods. -/
theorem print_invoice_C3 :
    endToEndRows = endToEndSorted ∧
    quarterPhoneSubtotals endToEndRows
      = [(2, 3, (150 : ℚ)), (4, 4, (30 : ℚ))] ∧
    quarterUserSubtotals endToEndRows
      = [(2, 3, (150 : ℚ)), (4, 4, (30 : ℚ))] ∧
    userNameSpans endToEndRows = [(2, 4)] ∧
    endToEndRows.map BillRow.bDate = ["202301", "202301", "202304"] ∧
    (endToEndRows.map BillRow.bAmount).sum = 180 ∧
    (quarterUserSubtotals endToEndRows).length = 2 := by
  have hf100 : pyFloat "100.00" = 100 := by
    rw [pyFloat_eval "100.00" 100 0 (by decide) (by decide)]
    norm_num
  have hf50 : pyFloat "50.00" = 50 := by
    rw [pyFloat_eval "50.00" 50 0 (by decide) (by decide)]
    norm_num
  have hf30 : pyFloat "30.00" = 30 := by
    rw [pyFloat_eval "30.00" 30 0 (by decide) (by decide)]
    norm_num
  have hyq1 : year_and_quarter "202301" = (2023, 1) := by decide
  have hyq4 : year_and_quarter "202304" = (2023, 2) := by decide
  have hb1 : buildRow ⟨"张三", "13800000000", "202301", "100.00", "a.pdf"⟩
      = ⟨"张三", "2023年第1季度", 2023, 1, "202301", "13800000000", 100,
         "a.pdf"⟩ := by
    simp only [buildRow, hyq1, hf100]
    rfl
  have hb2 : buildRow ⟨"张三", "13800000000", "202301", "50.00", "b.pdf"⟩
      = ⟨"张三", "2023年第1季度", 2023, 1, "202301", "13800000000", 50,
         "b.pdf"⟩ := by
    simp only [buildRow, hyq1, hf50]
    rfl
  have hb3 : buildRow ⟨"张三", "13800000000", "202304", "30.00", "c.pdf"⟩
      = ⟨"张三", "2023年第2季度", 2023, 2, "202304", "13800000000", 30,
         "c.pdf"⟩ := by
    simp only [buildRow, hyq4, hf30]
    rfl
  have hmap : endToEndParsed.map buildRow = endToEndSorted := by
    simp only [endToEndParsed, List.map_cons, List.map_nil, hb1, hb2, hb3,
      endToEndSorted]
  have hrows : endToEndRows = endToEndSorted := by
    simp only [endToEndRows, aggregateResults]
    rw [hmap, List.mergeSort_of_sorted (by decide)]
  have hphone : quarterPhoneSubtotals endToEndSorted
      = [(2, 3, (150 : ℚ)), (4, 4, (30 : ℚ))] := by
    simp only [quarterPhoneSubtotals]
    rw [pyGroupby_sorted key015 endToEndSorted (by decide)]
    simp +decide [endToEndSorted, itertoolsGroupby, groupbyRun, key015,
      accumulateFrom, mergeSpans]
    norm_num
  have huser : quarterUserSubtotals endToEndSorted
      = [(2, 3, (150 : ℚ)), (4, 4, (30 : ℚ))] := by
    simp only [quarterUserSubtotals]
    rw [pyGroupby_sorted key01 endToEndSorted (by decide)]
    simp +decide [endToEndSorted, itertoolsGroupby, groupbyRun, key01,
      accumulateFrom, mergeSpans]
    norm_num
  have hname : userNameSpans endToEndSorted = [(2, 4)] := by
    simp only [userNameSpans]
    rw [pyGroupby_sorted key0 endToEndSorted (by decide)]
    simp +decide [endToEndSorted, itertoolsGroupby, groupbyRun, key0,
      accumulateFrom, mergeSpans]
  refine ⟨hrows, ?_, ?_, ?_, ?_, ?_, ?_⟩ <;> rw [hrows]
  · exact hphone
  · exact huser
  · exact hname
  · rfl
  · simp [endToEndSorted]
    norm_num
  · rw [huser]
    rfl
